import Mathlib

/-!
Verification of the fade/hold LED playback engine in src/rgb.c.

The embedding models the C `int` scalars (`fadeTime`, `holdTime`, the fade
counter, the per-channel step schedule) as unbounded `Int` — for the table
shipped in the source all of these stay far inside the 16-bit range of the
AVR `int` — and the `unsigned char` channel values as `Nat` reduced modulo
256 wherever the C code can wrap.
-/

namespace RGB

/-- One row of `lightTab` (`struct rgbElement` in src/rgb.c, lines 122–127):
fade and hold durations in ticks plus the three stored channel intensities. -/
structure rgbElement where
  fadeTime : Int
  holdTime : Int
  red : Nat
  green : Nat
  blue : Nat
deriving DecidableEq, Inhabited

/-- The Light Table of src/rgb.c, lines 128–228 (99 rows, last one the
all-zero terminator). -/
def lightTab : List rgbElement := [
  rgbElement.mk 0 500 0 0 0,
  rgbElement.mk 500 500 255 0 0,
  rgbElement.mk 500 500 0 255 0,
  rgbElement.mk 500 500 0 0 255,
  rgbElement.mk 500 500 0 255 255,
  rgbElement.mk 500 500 255 0 255,
  rgbElement.mk 500 500 255 255 0,
  rgbElement.mk 500 2500 255 255 255,
  rgbElement.mk 7000 2500 255 0 0,
  rgbElement.mk 7000 2500 0 255 0,
  rgbElement.mk 7000 2500 0 0 255,
  rgbElement.mk 7000 2500 155 64 0,
  rgbElement.mk 7000 2500 64 255 64,
  rgbElement.mk 7000 2500 0 64 255,
  rgbElement.mk 7000 2500 64 0 64,
  rgbElement.mk 7000 1500 155 0 0,
  rgbElement.mk 7000 1500 0 255 0,
  rgbElement.mk 7000 1500 0 0 255,
  rgbElement.mk 7000 1500 140 0 240,
  rgbElement.mk 7000 1500 155 155 0,
  rgbElement.mk 7000 1500 155 255 255,
  rgbElement.mk 7000 1500 128 128 128,
  rgbElement.mk 7000 1500 48 48 58,
  rgbElement.mk 7000 1500 0 0 0,
  rgbElement.mk 2500 2500 155 0 0,
  rgbElement.mk 2500 2500 155 255 0,
  rgbElement.mk 2500 2500 0 255 0,
  rgbElement.mk 2500 2500 0 255 255,
  rgbElement.mk 2500 2500 0 0 255,
  rgbElement.mk 2500 2500 155 0 255,
  rgbElement.mk 2500 0 0 0 0,
  rgbElement.mk 2500 2500 155 0 0,
  rgbElement.mk 2500 2500 155 255 0,
  rgbElement.mk 2500 2500 0 255 0,
  rgbElement.mk 2500 2500 0 255 255,
  rgbElement.mk 2500 2500 0 0 255,
  rgbElement.mk 2500 2500 155 0 255,
  rgbElement.mk 2500 0 0 0 0,
  rgbElement.mk 2500 2500 154 32 0,
  rgbElement.mk 2500 2500 154 128 0,
  rgbElement.mk 2500 2500 154 240 0,
  rgbElement.mk 2500 2500 128 240 0,
  rgbElement.mk 0 2500 0 0 0,
  rgbElement.mk 2500 2500 0 16 255,
  rgbElement.mk 2500 2500 0 128 255,
  rgbElement.mk 2500 2500 0 240 128,
  rgbElement.mk 2500 2500 16 16 240,
  rgbElement.mk 2500 2500 140 16 240,
  rgbElement.mk 2500 2500 64 0 250,
  rgbElement.mk 0 2500 10 10 10,
  rgbElement.mk 0 2500 0 0 0,
  rgbElement.mk 2500 2500 140 0 240,
  rgbElement.mk 2500 2500 32 0 240,
  rgbElement.mk 2500 2500 128 0 128,
  rgbElement.mk 2500 2500 140 0 32,
  rgbElement.mk 2500 0 0 0 10,
  rgbElement.mk 2500 0 0 0 0,
  rgbElement.mk 1000 1000 0 0 0,
  rgbElement.mk 1000 1000 32 0 0,
  rgbElement.mk 1000 1000 64 0 0,
  rgbElement.mk 0 1000 96 0 0,
  rgbElement.mk 1000 0 128 0 0,
  rgbElement.mk 1000 0 160 32 0,
  rgbElement.mk 1000 0 192 64 0,
  rgbElement.mk 1000 0 124 96 0,
  rgbElement.mk 0 1000 155 128 0,
  rgbElement.mk 1000 1000 0 160 0,
  rgbElement.mk 0 1000 0 192 0,
  rgbElement.mk 1000 1000 0 224 32,
  rgbElement.mk 1000 0 0 255 64,
  rgbElement.mk 1000 0 0 0 96,
  rgbElement.mk 1000 0 0 0 128,
  rgbElement.mk 1000 0 0 0 160,
  rgbElement.mk 1000 0 0 0 192,
  rgbElement.mk 1000 0 0 0 224,
  rgbElement.mk 1000 1000 0 0 255,
  rgbElement.mk 1000 0 0 0 0,
  rgbElement.mk 0 1000 0 0 255,
  rgbElement.mk 1000 1000 32 0 0,
  rgbElement.mk 1000 1000 96 0 0,
  rgbElement.mk 1000 1000 160 0 0,
  rgbElement.mk 1000 0 255 0 0,
  rgbElement.mk 1000 1000 0 96 0,
  rgbElement.mk 1000 1000 0 160 32,
  rgbElement.mk 1000 1000 0 224 64,
  rgbElement.mk 1000 1000 0 255 96,
  rgbElement.mk 1000 1000 0 0 128,
  rgbElement.mk 1000 1000 0 0 160,
  rgbElement.mk 1000 1000 0 32 192,
  rgbElement.mk 1000 1000 0 64 224,
  rgbElement.mk 1000 1000 0 96 225,
  rgbElement.mk 1000 1000 0 128 0,
  rgbElement.mk 1000 1000 0 160 0,
  rgbElement.mk 1000 1000 0 192 32,
  rgbElement.mk 1000 1000 0 224 64,
  rgbElement.mk 1000 1000 0 255 96,
  rgbElement.mk 1000 1000 0 0 255,
  rgbElement.mk 1000 1000 0 0 0,
  rgbElement.mk 0 0 0 0 0]

/-- The terminator test of the do-while loop in main (line 497):
`fadeTime == 0 && holdTime == 0`. -/
def isSentinel (k : rgbElement) : Bool :=
  k.fadeTime == 0 && k.holdTime == 0

/-- Per-channel fade-loop state: `redTemp` (the running `unsigned char`
value, kept in [0,256)), `redTime` (the next fadeCounter value at which the
channel is adjusted), `redTimeInc` (the tick interval added back onto
`redTime` after each adjustment) and `redInc` (the `unsigned char` step,
1 or 255 = -1 mod 256). -/
structure ChState where
  temp : Nat
  time : Int
  timeInc : Int
  inc : Nat
deriving DecidableEq

/-- The step-schedule computation of lines 289 and 305–309: `redTime` is 0
by default; when the delta is nonzero it is `FadeTime / redDelta` with C
truncating division (`Int.tdiv`), made non-negative, plus 1. -/
def stepTime (FadeTime delta : Int) : Int :=
  if delta ≠ 0 then
    (if Int.tdiv FadeTime delta < 0 then -(Int.tdiv FadeTime delta)
     else Int.tdiv FadeTime delta) + 1
  else 0

/-- Initial per-channel state before the fade loop (lines 289–335): the
running value starts at the previous value, the schedule comes from
`stepTime`, and the increment is 1, or 255 (the `unsigned char` image of
-1) when the channel fades down. -/
def chInit (FadeTime : Int) (prev target : Nat) : ChState :=
  { temp := prev
    time := stepTime FadeTime ((target : Int) - (prev : Int))
    timeInc := stepTime FadeTime ((target : Int) - (prev : Int))
    inc := if (target : Int) - (prev : Int) < 0 then 255 else 1 }

/-- One fade-loop iteration for one channel (lines 349–352): when the fade
counter reaches the scheduled tick of the channel, the running value moves by
`inc` (modulo 256, `unsigned char` arithmetic) and the next adjustment is
scheduled `timeInc` ticks later. -/
def chStep (fadeCounter : Int) (s : ChState) : ChState :=
  if fadeCounter = s.time then
    { s with temp := (s.temp + s.inc) % 256, time := s.time + s.timeInc }
  else s

/-- Run `n` consecutive fade-loop iterations for one channel, the fade
counter starting at `c` (the loop of line 348 starts it at 1). -/
def chRun (s : ChState) (c : Int) : Nat → ChState
  | 0 => s
  | n + 1 => chRun (chStep c s) (c + 1) n

/-- The three channels of the fade loop (red, green, blue). -/
structure FadeState where
  r : ChState
  g : ChState
  b : ChState
deriving DecidableEq

/-- One iteration of the fade loop over all three channels (lines 349–360);
the channels are adjusted independently. -/
def fadeStep (fadeCounter : Int) (s : FadeState) : FadeState :=
  ⟨chStep fadeCounter s.r, chStep fadeCounter s.g, chStep fadeCounter s.b⟩

/-- The PWM writes emitted by the fade loop (lines 362–364): one
(red, green, blue) triple per iteration, written after the three channels
have been adjusted for that tick. -/
def fadeRun (s : FadeState) (c : Int) : Nat → List (Nat × Nat × Nat)
  | 0 => []
  | n + 1 =>
    ((fadeStep c s).r.temp, (fadeStep c s).g.temp, (fadeStep c s).b.temp) ::
      fadeRun (fadeStep c s) (c + 1) n

/-- The complete emission trace of one keyframe playback (the body of
`sendrgbElement` after the values are loaded): the `FadeTime == 0` blink
write (lines 338–342), then the fade-loop writes for fadeCounter = 1 ..
FadeTime (lines 348–368), then the unconditional final write of the target
values (lines 371–373). -/
def playTrace (prevR prevG prevB : Nat) (FadeTime : Int) (R G B : Nat) :
    List (Nat × Nat × Nat) :=
  (if FadeTime = 0 then [(R, G, B)] else []) ++
    fadeRun ⟨chInit FadeTime prevR R, chInit FadeTime prevG G,
             chInit FadeTime prevB B⟩ 1 FadeTime.toNat ++
    [(R, G, B)]

/-- Number of calls to the tick-delay primitive made by one keyframe
playback: one per fade-loop iteration (line 367) plus one per hold-loop
iteration (lines 376–379). -/
def playTicks (FadeTime HoldTime : Int) : Nat :=
  FadeTime.toNat + HoldTime.toNat

/-- The inverted target values loaded at `index` (lines 271–273): 255 minus
the stored intensity, the common-anode polarity inversion. -/
def targetOf (tab : List rgbElement) (index : Nat) : Nat × Nat × Nat :=
  (255 - (tab.getD index default).red,
   255 - (tab.getD index default).green,
   255 - (tab.getD index default).blue)

/-- The previous channel values (lines 276–284): 0 for index 0, otherwise
the inverted values of the table entry at `index - 1`. -/
def prevOf (tab : List rgbElement) (index : Nat) : Nat × Nat × Nat :=
  if index ≠ 0 then targetOf tab (index - 1) else (0, 0, 0)

/-- The emission trace of `sendrgbElement index`. -/
def sendrgbElementTrace (tab : List rgbElement) (index : Nat) :
    List (Nat × Nat × Nat) :=
  playTrace (prevOf tab index).1 (prevOf tab index).2.1 (prevOf tab index).2.2
    (tab.getD index default).fadeTime
    (targetOf tab index).1 (targetOf tab index).2.1 (targetOf tab index).2.2

/-- Tick delays consumed by `sendrgbElement index`. -/
def sendrgbElementTicks (tab : List rgbElement) (index : Nat) : Nat :=
  playTicks (tab.getD index default).fadeTime (tab.getD index default).holdTime

/-- The do-while loop of main (lines 494–497), structurally recursive on
the table suffix after the entry being played: play `index`, advance, and
stop once the entry at `index + 1` (the head of `rest`) is the sentinel.
Returns the played indices; `none` models the loop scanning past the end of
the table (out-of-bounds program-memory reads in the C source). -/
def passAux (index : Nat) : List rgbElement → Option (List Nat)
  | [] => none
  | k :: rest =>
    if isSentinel k then some [index]
    else (passAux (index + 1) rest).map (fun l => index :: l)

/-- One full pass of the do-while loop of main, starting at index 0. -/
def runPass (tab : List rgbElement) : Option (List Nat) :=
  passAux 0 (tab.drop 1)

/-- The outer loop of main (lines 493–499): 360 passes, the index being
reset to 0 after the sentinel is detected, concatenating the indices played. -/
def mainLoop : Nat → Option (List Nat)
  | 0 => some []
  | n + 1 =>
    (runPass lightTab).bind (fun pass => (mainLoop n).map (fun rest => pass ++ rest))

/-- Tick delays consumed by one full pass. -/
def passTicks (tab : List rgbElement) : Option Nat :=
  (runPass tab).map (fun l => (l.map (fun i => sendrgbElementTicks tab i)).sum)


/-- Peeling the last iteration off a channel run. -/
lemma chRun_succ : ∀ (n : Nat) (s : ChState) (c : Int),
    chRun s c (n + 1) = chStep (c + (n : Int)) (chRun s c n) := by
  intro n
  induction n with
  | zero =>
    intro s c
    show chStep c s = chStep (c + ((0 : Nat) : Int)) s
    norm_num
  | succ n ih =>
    intro s c
    have h : chRun s c (n + 1 + 1) = chRun (chStep c s) (c + 1) (n + 1) := rfl
    rw [h, ih]
    have h2 : c + 1 + (n : Int) = c + ((n + 1 : Nat) : Int) := by push_cast; ring
    have h3 : chRun s c (n + 1) = chRun (chStep c s) (c + 1) n := rfl
    rw [h2, h3]

/-- A channel whose schedule is 0 (delta = 0) is never adjusted: the fade
counter starts at 1 and only increases. -/
lemma chRun_time_zero : ∀ (n : Nat) (s : ChState) (c : Int),
    s.time = 0 → s.timeInc = 0 → 1 ≤ c → chRun s c n = s := by
  intro n
  induction n with
  | zero => intro s c _ _ _; rfl
  | succ n ih =>
    intro s c h0 hi h1
    have hs : chStep c s = s := by
      unfold chStep
      rw [if_neg]
      rw [h0]
      omega
    show chRun (chStep c s) (c + 1) n = s
    rw [hs]
    exact ih s (c + 1) h0 hi (by omega)

/-- The fade loop emits exactly one output write per iteration. -/
lemma fadeRun_length : ∀ (n : Nat) (s : FadeState) (c : Int),
    (fadeRun s c n).length = n := by
  intro n
  induction n with
  | zero => intro s c; rfl
  | succ n ih => intro s c; simp [fadeRun, ih]

/-- Every emission of the fade loop is the triple of running channel values
after some number i + 1 of iterations. -/
lemma fadeRun_mem : ∀ (n : Nat) (s : FadeState) (c : Int) (e : Nat × Nat × Nat),
    e ∈ fadeRun s c n → ∃ i : Nat, i < n ∧
      e = ((chRun s.r c (i + 1)).temp, (chRun s.g c (i + 1)).temp,
           (chRun s.b c (i + 1)).temp) := by
  intro n
  induction n with
  | zero => intro s c e h; simp [fadeRun] at h
  | succ n ih =>
    intro s c e h
    rw [fadeRun] at h
    rcases List.mem_cons.1 h with he | he
    · exact ⟨0, Nat.succ_pos n, by rw [he]; rfl⟩
    · obtain ⟨i, hi, hei⟩ := ih (fadeStep c s) (c + 1) e he
      exact ⟨i + 1, by omega, by rw [hei]; rfl⟩

/-- The last write of a keyframe playback is the unconditional write of the
target values. -/
lemma playTrace_getLast (prevR prevG prevB : Nat) (FadeTime : Int) (R G B : Nat) :
    (playTrace prevR prevG prevB FadeTime R G B).getLast? = some (R, G, B) := by
  unfold playTrace
  exact List.getLast?_concat _

set_option maxRecDepth 8000 in
/-- One pass of main over the shipped table plays exactly indices 0..97. -/
lemma runPass_lightTab : runPass lightTab = some (List.range 98) := by decide

/-- The outer loop of main: n passes concatenate n copies of the same pass,
each restarted from index 0. -/
lemma mainLoop_eq : ∀ n : Nat,
    mainLoop n = some (List.flatten (List.replicate n (List.range 98))) := by
  intro n
  induction n with
  | zero => rfl
  | succ n ih =>
    show (runPass lightTab).bind
        (fun pass => (mainLoop n).map (fun rest => pass ++ rest)) = _
    rw [runPass_lightTab, ih, List.replicate_succ, List.flatten_cons]
    rfl

/-- Division bound: n < k * (n / k + 1) for positive k. -/
lemma lt_mul_div_succ (n k : Nat) (hk : 0 < k) : n < k * (n / k + 1) := by
  have h := Nat.div_add_mod n k
  have h2 := Nat.mod_lt n hk
  calc n = k * (n / k) + n % k := h.symm
    _ < k * (n / k) + k := Nat.add_lt_add_left h2 _
    _ = k * (n / k + 1) := by rw [Nat.mul_succ]

/-- For a non-negative fade time and nonzero delta, the schedule of
lines 305–309 is the Nat-level quantity fadeTime / |delta| + 1. -/
lemma stepTime_eq_nat (F : Int) (hF : 0 ≤ F) (d : Int) (hd : d ≠ 0) :
    stepTime F d = ((F.toNat / d.natAbs : Nat) : Int) + 1 := by
  have key : Int.tdiv F d = ((F.toNat / d.natAbs : Nat) : Int) ∨
      Int.tdiv F d = -((F.toNat / d.natAbs : Nat) : Int) := by
    rcases lt_or_gt_of_ne hd with hneg | hpos
    · right
      have h1 : Int.tdiv F d = -(Int.tdiv F (-d)) := by
        rw [← Int.tdiv_neg, neg_neg]
      have h2 : Int.tdiv F (-d) = Int.tdiv ((F.toNat : Nat) : Int) ((d.natAbs : Nat) : Int) := by
        congr 1
        · omega
        · omega
      rw [h1, h2, ← Int.ofNat_tdiv]
    · left
      have h2 : Int.tdiv F d = Int.tdiv ((F.toNat : Nat) : Int) ((d.natAbs : Nat) : Int) := by
        congr 1
        · omega
        · omega
      rw [h2, ← Int.ofNat_tdiv]
  unfold stepTime
  rw [if_pos hd]
  generalize hgen : (F.toNat / d.natAbs : Nat) = k at key ⊢
  rcases key with h | h <;> rw [h] <;> split <;> omega

/-- Closed form of a channel run: starting from value f 0 with schedule T
and step image f, after ticks 1..c the channel has been adjusted exactly
c / T times (at ticks T, 2T, ...) and its next adjustment is scheduled at
tick (c / T + 1) * T. -/
lemma chRun_formula (T : Nat) (hT : 0 < T) (inc : Nat) (f : Nat → Nat) (N : Nat)
    (hstep : ∀ a, (a + 1) * T ≤ N → (f a + inc) % 256 = f (a + 1)) :
    ∀ c, c ≤ N →
      chRun ⟨f 0, (T : Int), (T : Int), inc⟩ 1 c =
        ⟨f (c / T), (((c / T + 1) * T : Nat) : Int), (T : Int), inc⟩ := by
  intro c
  induction c with
  | zero =>
    intro _
    rw [Nat.zero_div, Nat.zero_add, Nat.one_mul]
    rfl
  | succ c ih =>
    intro hc1
    have hc : c ≤ N := Nat.le_of_succ_le hc1
    rw [chRun_succ, ih hc]
    by_cases h : c + 1 = (c / T + 1) * T
    · have hcond : (1 : Int) + (c : Int) = (((c / T + 1) * T : Nat) : Int) := by
        generalize (c / T + 1) * T = M at h ⊢
        omega
      have htemp : (f (c / T) + inc) % 256 = f (c / T + 1) := hstep (c / T) (by omega)
      have hdiv : (c + 1) / T = c / T + 1 := by
        rw [h, Nat.mul_div_cancel _ hT]
      simp only [chStep, if_pos hcond]
      rw [hdiv, htemp]
      have htime : (((c / T + 1) * T : Nat) : Int) + (T : Int) =
          (((c / T + 1 + 1) * T : Nat) : Int) := by push_cast; ring
      rw [htime]
    · have hlt : c < (c / T + 1) * T := by
        have h1 : c / T < c / T + 1 := Nat.lt_succ_self _
        exact (Nat.div_lt_iff_lt_mul hT).1 h1
      have hdiv : (c + 1) / T = c / T := by
        have h2 : c + 1 < (c / T + 1) * T := lt_of_le_of_ne (by omega) h
        have h3 : (c + 1) / T < c / T + 1 := (Nat.div_lt_iff_lt_mul hT).2 h2
        have h4 : c / T ≤ (c + 1) / T := Nat.div_le_div_right (Nat.le_succ c)
        omega
      have hcond : ¬((1 : Int) + (c : Int) = (((c / T + 1) * T : Nat) : Int)) := by
        generalize hM : (c / T + 1) * T = M at h ⊢
        omega
      simp only [chStep, if_neg hcond]
      rw [hdiv]

/-- A channel whose schedule is 0 is not adjusted at a positive tick. -/
lemma chStep_time_zero (s : ChState) (c : Int) (h0 : s.time = 0) (h1 : 1 ≤ c) :
    chStep c s = s := by
  unfold chStep
  rw [if_neg]
  rw [h0]
  omega

/-- A channel with delta = 0 gets schedule 0 and increment 1. -/
lemma chInit_same (F : Int) (prev : Nat) : chInit F prev prev = ⟨prev, 0, 0, 1⟩ := by
  unfold chInit
  simp [stepTime]

/-- Fading up (prev < target): after ticks 1..c the running value is
prev + c / T with T = fadeTime / (target - prev) + 1, and the number of
adjustments c / T stays strictly below the delta. -/
lemma chRun_chInit_up (F : Int) (hF : 0 < F) (prev target : Nat)
    (hlt : prev < target) (ht : target ≤ 255) (c : Nat) (hc : c ≤ F.toNat) :
    (chRun (chInit F prev target) 1 c).temp =
      prev + c / (F.toNat / (target - prev) + 1) ∧
    c / (F.toNat / (target - prev) + 1) < target - prev := by
  set dn := target - prev with hdn
  set T := F.toNat / dn + 1 with hTdef
  have hT : 0 < T := Nat.succ_pos _
  have hdnpos : 0 < dn := by omega
  have hFN : F.toNat < dn * T := lt_mul_div_succ F.toNat dn hdnpos
  have hcd : c / T < dn := by
    apply (Nat.div_lt_iff_lt_mul hT).2
    calc c ≤ F.toNat := hc
      _ < dn * T := hFN
  have hstep : ∀ a, (a + 1) * T ≤ F.toNat →
      ((fun a => prev + a) a + 1) % 256 = (fun a => prev + a) (a + 1) := by
    intro a ha
    have haT : (a + 1) * T < dn * T := lt_of_le_of_lt ha hFN
    have hadn : a + 1 < dn := lt_of_mul_lt_mul_right haT (Nat.zero_le T)
    show (prev + a + 1) % 256 = prev + (a + 1)
    omega
  have hinit : chInit F prev target = ⟨(fun a => prev + a) 0, (T : Int), (T : Int), 1⟩ := by
    have hd : ((target : Int) - (prev : Int)) ≠ 0 := by omega
    have h1 := stepTime_eq_nat F (le_of_lt hF) _ hd
    have h2 : ((target : Int) - (prev : Int)).natAbs = dn := by omega
    rw [h2] at h1
    unfold chInit
    rw [h1]
    simp only [ChState.mk.injEq]
    refine ⟨by omega, by push_cast; ring, by push_cast; ring, ?_⟩
    rw [if_neg (show ¬((target : Int) - (prev : Int) < 0) by omega)]
  rw [hinit, chRun_formula T hT 1 (fun a => prev + a) F.toNat hstep c hc]
  exact ⟨rfl, hcd⟩

/-- Fading down (target < prev): after ticks 1..c the running value is
prev - c / T with T = fadeTime / (prev - target) + 1; adding the increment
255 modulo 256 subtracts one without wrapping, and the number of
adjustments c / T stays strictly below the delta. -/
lemma chRun_chInit_down (F : Int) (hF : 0 < F) (prev target : Nat)
    (hgt : target < prev) (hp : prev ≤ 255) (c : Nat) (hc : c ≤ F.toNat) :
    (chRun (chInit F prev target) 1 c).temp =
      prev - c / (F.toNat / (prev - target) + 1) ∧
    c / (F.toNat / (prev - target) + 1) < prev - target := by
  set dn := prev - target with hdn
  set T := F.toNat / dn + 1 with hTdef
  have hT : 0 < T := Nat.succ_pos _
  have hdnpos : 0 < dn := by omega
  have hFN : F.toNat < dn * T := lt_mul_div_succ F.toNat dn hdnpos
  have hcd : c / T < dn := by
    apply (Nat.div_lt_iff_lt_mul hT).2
    calc c ≤ F.toNat := hc
      _ < dn * T := hFN
  have hstep : ∀ a, (a + 1) * T ≤ F.toNat →
      ((fun a => prev - a) a + 255) % 256 = (fun a => prev - a) (a + 1) := by
    intro a ha
    have haT : (a + 1) * T < dn * T := lt_of_le_of_lt ha hFN
    have hadn : a + 1 < dn := lt_of_mul_lt_mul_right haT (Nat.zero_le T)
    show (prev - a + 255) % 256 = prev - (a + 1)
    omega
  have hinit : chInit F prev target = ⟨(fun a => prev - a) 0, (T : Int), (T : Int), 255⟩ := by
    have hd : ((target : Int) - (prev : Int)) ≠ 0 := by omega
    have h1 := stepTime_eq_nat F (le_of_lt hF) _ hd
    have h2 : ((target : Int) - (prev : Int)).natAbs = dn := by omega
    rw [h2] at h1
    unfold chInit
    rw [h1]
    simp only [ChState.mk.injEq]
    refine ⟨by omega, by push_cast; ring, by push_cast; ring, ?_⟩
    rw [if_pos (show (target : Int) - (prev : Int) < 0 by omega)]
  rw [hinit, chRun_formula T hT 255 (fun a => prev - a) F.toNat hstep c hc]
  exact ⟨rfl, hcd⟩

/-- During the fade loop a channel value always stays in the closed
interval between its previous and target values. -/
lemma chRun_temp_range (F : Int) (hF : 0 < F) (prev target : Nat)
    (hp : prev ≤ 255) (ht : target ≤ 255) (c : Nat) (hc : c ≤ F.toNat) :
    min prev target ≤ (chRun (chInit F prev target) 1 c).temp ∧
    (chRun (chInit F prev target) 1 c).temp ≤ max prev target := by
  rcases Nat.lt_trichotomy prev target with h | h | h
  · obtain ⟨he, hb⟩ := chRun_chInit_up F hF prev target h ht c hc
    generalize hq : c / (F.toNat / (target - prev) + 1) = q at he hb
    rw [he]
    omega
  · subst h
    rw [chInit_same, chRun_time_zero c ⟨prev, 0, 0, 1⟩ 1 rfl rfl (le_refl 1)]
    simp
  · obtain ⟨he, hb⟩ := chRun_chInit_down F hF prev target h hp c hc
    generalize hq : c / (F.toNat / (prev - target) + 1) = q at he hb
    rw [he]
    omega

/-- In the three-channel fade loop, a red channel with schedule 0 keeps its
running value in every emitted write, whatever the other channels do. -/
lemma fadeRun_red_const (prev : Nat) : ∀ (n : Nat) (r sg sb : ChState) (c : Int),
    r.time = 0 → r.temp = prev → 1 ≤ c →
    (fadeRun ⟨r, sg, sb⟩ c n).all (fun e => e.1 == prev) = true := by
  intro n
  induction n with
  | zero => intro r sg sb c _ _ _; rfl
  | succ n ih =>
    intro r sg sb c h0 htemp h1
    have hr : chStep c r = r := chStep_time_zero r c h0 h1
    rw [fadeRun, List.all_cons]
    have hhead : ((fadeStep c ⟨r, sg, sb⟩).r.temp == prev) = true := by
      show ((chStep c r).temp == prev) = true
      rw [hr, htemp]
      exact beq_self_eq_true prev
    rw [hhead, Bool.true_and]
    have htail := ih (chStep c r) (chStep c sg) (chStep c sb) (c + 1)
      (by rw [hr]; exact h0) (by rw [hr]; exact htemp) (by omega)
    exact htail

/-- C1 (counterexample): the first keyframe of the shipped table has
fadeDuration 0, and playing it emits two output updates, not one — the
blink write of lines 338–342 and the unconditional final write of
lines 371–373 both execute. -/
theorem claim1_counterexample :
    (lightTab.getD 0 default).fadeTime = 0 ∧
    (sendrgbElementTrace lightTab 0).length = 2 ∧
    ((sendrgbElementTrace lightTab 0).length == 1) = false := by decide

/-- C1 (amended): for fadeDuration 0 the playback emits exactly two output
updates per channel, both at the target values (the blink write and the
unconditional post-loop write), executes zero fade-loop iterations and
consumes zero fade ticks. -/
theorem claim1_blink_two_writes (pr pg pb R G B : Nat) (H : Int) :
    playTrace pr pg pb 0 R G B = [(R, G, B), (R, G, B)] ∧
    fadeRun ⟨chInit 0 pr R, chInit 0 pg G, chInit 0 pb B⟩ 1 ((0 : Int).toNat) = [] ∧
    playTicks 0 H = H.toNat := by
  refine ⟨rfl, rfl, ?_⟩
  show (0 : Int).toNat + H.toNat = H.toNat
  simp

/-- C2: for nonzero delta the step interval is the absolute value of the
truncating division fadeDuration / delta, plus one; in particular
stepTime 500 255 = (500 / 255) + 1 = 2, and in the concrete scenario
(previous 0, target 255, fadeDuration 500) the running value after c fade
ticks is c / 2 — the channel is adjusted by one unit every 2 ticks. -/
theorem claim2_step_interval (F d : Int) (hd : d ≠ 0) :
    stepTime F d = |Int.tdiv F d| + 1 ∧
    stepTime 500 255 = 2 ∧
    (∀ c : Nat, c ≤ 500 → (chRun (chInit 500 0 255) 1 c).temp = c / 2) := by
  refine ⟨?_, by decide, ?_⟩
  · unfold stepTime
    rw [if_pos hd]
    rcases le_or_lt 0 (Int.tdiv F d) with h | h
    · rw [if_neg (not_lt.2 h), abs_of_nonneg h]
    · rw [if_pos h, abs_of_neg h]
  · intro c hc
    have h := (chRun_chInit_up 500 (by norm_num) 0 255 (by norm_num) (le_refl 255) c
      (show c ≤ (500 : Int).toNat from hc)).1
    have h2 : (500 : Int).toNat / (255 - 0) + 1 = 2 := rfl
    rw [h, h2, Nat.zero_add]

/-- C2 witness at fadeDuration 500, delta 255, fade tick 4. -/
theorem claim2_step_interval_witness :
    (255 : Int) ≠ 0 ∧
    stepTime 500 255 = |Int.tdiv 500 255| + 1 ∧
    (4 : Nat) ≤ 500 ∧
    (chRun (chInit 500 0 255) 1 4).temp = 4 / 2 :=
  ⟨by decide, (claim2_step_interval 500 255 (by decide)).1, by decide,
   (claim2_step_interval 500 255 (by decide)).2.2 4 (by decide)⟩

/-- C3: for every keyframe the last value emitted to the output sink is
exactly the target triple, whatever the fade duration and whatever the
intermediate interpolated values were. -/
theorem claim3_final_equals_target (pr pg pb : Nat) (F : Int) (R G B : Nat) :
    (playTrace pr pg pb F R G B).getLast? = some (R, G, B) :=
  playTrace_getLast pr pg pb F R G B

/-- C4: a channel whose delta is zero is never adjusted during the fade
loop: its running value equals the previous value after any number of
iterations, and every write emitted by the three-channel loop carries the
unchanged value for that channel. -/
theorem claim4_delta_zero_constant :
    (∀ (F : Int) (prev : Nat) (n : Nat),
      (chRun (chInit F prev prev) 1 n).temp = prev) ∧
    (∀ (F : Int) (prev : Nat) (sg sb : ChState) (n : Nat),
      (fadeRun ⟨chInit F prev prev, sg, sb⟩ 1 n).all (fun e => e.1 == prev) = true) := by
  constructor
  · intro F prev n
    rw [chInit_same, chRun_time_zero n ⟨prev, 0, 0, 1⟩ 1 rfl rfl (le_refl 1)]
  · intro F prev sg sb n
    rw [chInit_same]
    exact fadeRun_red_const prev n ⟨prev, 0, 0, 1⟩ sg sb 1 rfl rfl (le_refl 1)

/-- C5: one full pass of the do-while loop of main over the shipped table
terminates cleanly at the sentinel, playing exactly the 98 non-sentinel
keyframes (indices 0 through 97) of the 99-entry table. -/
theorem claim5_pass_terminates :
    runPass lightTab = some (List.range 98) ∧
    (List.range 98).length = 98 ∧
    (lightTab.filter (fun k => !(isSentinel k))).length = 98 ∧
    lightTab.length = 99 :=
  ⟨runPass_lightTab, by simp, by decide, by decide⟩

/-- C6: in every one of the 360 passes of main the sentinel at index 98 is
detected and the pass restarts from index 0; the played indices are 360
copies of 0..97, all strictly below 98, so the sentinel keyframe is never
played and never produces an output update. -/
theorem claim6_sentinel_restart :
    mainLoop 360 = some (List.flatten (List.replicate 360 (List.range 98))) ∧
    (List.range 98).all (fun i => decide (i < 98)) = true ∧
    isSentinel (lightTab.getD 98 default) = true ∧
    lightTab.getD 98 default = rgbElement.mk 0 0 0 0 0 :=
  ⟨mainLoop_eq 360, by decide, by decide, by decide⟩

/-- C7: the shipped table is non-empty, ends with the all-zero sentinel,
contains exactly one keyframe matching the sentinel signature
(fadeTime = 0 and holdTime = 0), and no keyframe before the last matches it. -/
theorem claim7_table_invariant :
    lightTab.isEmpty = false ∧
    lightTab.getLast? = some (rgbElement.mk 0 0 0 0 0) ∧
    isSentinel (rgbElement.mk 0 0 0 0 0) = true ∧
    (lightTab.filter isSentinel).length = 1 ∧
    (lightTab.dropLast.filter isSentinel).length = 0 := by decide

set_option maxRecDepth 8000 in
/-- C8 (counterexample): the tick total of one full pass over the shipped
table is 366,000, not approximately 259,000 as the stale source comment
(and the claim) state. -/
theorem claim8_counterexample :
    passTicks lightTab = some 366000 ∧ ((366000 : Nat) == 259000) = false := by
  constructor
  · rw [passTicks, runPass_lightTab]
    decide
  · decide

set_option maxRecDepth 8000 in
/-- C8 (amended): each fade-loop and each hold-loop iteration consumes
exactly one tick delay, so one full pass consumes the sum of
fadeDuration + holdDuration over the non-sentinel keyframes; for the
shipped table that sum is 227,500 + 138,500 = 366,000 ticks. -/
theorem claim8_pass_ticks :
    passTicks lightTab =
      some (((lightTab.filter (fun k => !(isSentinel k))).map
        (fun k => k.fadeTime.toNat + k.holdTime.toNat)).sum) ∧
    passTicks lightTab = some 366000 ∧
    ((lightTab.filter (fun k => !(isSentinel k))).map
      (fun k => k.fadeTime.toNat)).sum = 227500 ∧
    ((lightTab.filter (fun k => !(isSentinel k))).map
      (fun k => k.holdTime.toNat)).sum = 138500 ∧
    (∀ (n : Nat) (s : FadeState) (c : Int), (fadeRun s c n).length = n) := by
  refine ⟨?_, ?_, by decide, by decide, fadeRun_length⟩
  · rw [passTicks, runPass_lightTab]
    decide
  · rw [passTicks, runPass_lightTab]
    decide

/-- C9: with all channel endpoints in [0,255] and a positive fade duration,
every write emitted by the fade loop keeps each channel inside the closed
interval between its previous and target values — the step interval
exceeds fadeDuration / |delta|, so fewer than |delta| one-unit adjustments
happen and the 8-bit value neither overshoots nor wraps. -/
theorem claim9_fade_in_range (pr R pg G pb B : Nat)
    (h1 : pr ≤ 255) (h2 : R ≤ 255) (h3 : pg ≤ 255) (h4 : G ≤ 255)
    (h5 : pb ≤ 255) (h6 : B ≤ 255) (F : Int) (hF : 0 < F)
    (e : Nat × Nat × Nat)
    (he : e ∈ fadeRun ⟨chInit F pr R, chInit F pg G, chInit F pb B⟩ 1 F.toNat) :
    (min pr R ≤ e.1 ∧ e.1 ≤ max pr R) ∧
    (min pg G ≤ e.2.1 ∧ e.2.1 ≤ max pg G) ∧
    (min pb B ≤ e.2.2 ∧ e.2.2 ≤ max pb B) := by
  obtain ⟨i, hi, hei⟩ :=
    fadeRun_mem F.toNat ⟨chInit F pr R, chInit F pg G, chInit F pb B⟩ 1 e he
  have hc : i + 1 ≤ F.toNat := hi
  subst hei
  exact ⟨chRun_temp_range F hF pr R h1 h2 (i + 1) hc,
         chRun_temp_range F hF pg G h3 h4 (i + 1) hc,
         chRun_temp_range F hF pb B h5 h6 (i + 1) hc⟩

/-- C9 witness: fade duration 3 from (0,5,7) to (2,5,3); the first emitted
write (0,5,6) stays within all three channel intervals. -/
theorem claim9_fade_in_range_witness :
    (0 : Nat) ≤ 255 ∧ (2 : Nat) ≤ 255 ∧ (5 : Nat) ≤ 255 ∧ (5 : Nat) ≤ 255 ∧
    (7 : Nat) ≤ 255 ∧ (3 : Nat) ≤ 255 ∧ (0 : Int) < 3 ∧
    ((0, 5, 6) : Nat × Nat × Nat) ∈
      fadeRun ⟨chInit 3 0 2, chInit 3 5 5, chInit 3 7 3⟩ 1 ((3 : Int).toNat) ∧
    ((min 0 2 ≤ (0 : Nat) ∧ (0 : Nat) ≤ max 0 2) ∧
     (min 5 5 ≤ (5 : Nat) ∧ (5 : Nat) ≤ max 5 5) ∧
     (min 7 3 ≤ (6 : Nat) ∧ (6 : Nat) ≤ max 7 3)) :=
  ⟨by decide, by decide, by decide, by decide, by decide, by decide, by decide, by decide,
   claim9_fade_in_range 0 2 5 5 7 3 (by decide) (by decide) (by decide) (by decide)
     (by decide) (by decide) 3 (by decide) (0, 5, 6) (by decide)⟩

/-- C10: the polarity inversion happens inside the engine — the loaded
target triple is 255 minus the stored intensities, the previous values for
index i + 1 are re-read (inverted) from the table entry at index i rather
than carried over as returned state, the previous values at index 0 are
(0,0,0) in the inverted domain, and the final emitted write equals the
inverted target triple. -/
theorem claim10_inversion_loading :
    (∀ (tab : List rgbElement) (i : Nat),
      targetOf tab i =
        (255 - (tab.getD i default).red, 255 - (tab.getD i default).green,
         255 - (tab.getD i default).blue) ∧
      prevOf tab (i + 1) = targetOf tab i ∧
      (sendrgbElementTrace tab i).getLast? = some (targetOf tab i)) ∧
    (∀ tab : List rgbElement, prevOf tab 0 = (0, 0, 0)) := by
  constructor
  · intro tab i
    refine ⟨rfl, ?_, ?_⟩
    · unfold prevOf
      rw [if_pos (Nat.succ_ne_zero i), Nat.add_sub_cancel]
    · unfold sendrgbElementTrace
      rw [playTrace_getLast]
  · intro tab
    rfl

end RGB

